import Mathlib

/-!
Verification development for the `lox-rs` tree-walking interpreter.

This file shallowly embeds the semantic core of the repository in Lean 4:
the AST (`src/ast/src/ast.rs`), the environment model
(`src/ast/src/env.rs`, `src/ast/src/lib.rs`), the expression evaluator
(`src/interpreter/src/evaluator.rs`), the callable/class dispatch
(`src/interpreter/src/callable.rs`), the statement runner
(`src/src/interpreter.rs`, the revision of the `Interpreter` type present
in the sources; the crate-local `interpreter/src/interpreter.rs` module is
absent from the sources, so the few operations only it defines —
`get_distance` and `Interpreter::resolve` — are modelled from the spec
where noted), and the static resolver (`src/interpreter/src/resolver.rs`).

Modelling conventions:
* `Rc<RefCell<...>>` shared mutable data is represented by indices into
  explicit stores held in a `St` state record: environments, value cells
  and class instances each get a store; allocation appends to the store.
* Rust `HashMap<String, V>` becomes an association list with
  insert-replaces-existing-key semantics (`upsert`).
* `i64` is modelled as `Int` (the claims under verification do not hinge
  on wrap-around; Rust debug builds panic on overflow, which is outside
  the claims' scope) and `f64` as `Rat` — the claims about floats concern
  only the exact-zero test `f == 0.0` and display quoting, both of which
  `Rat` represents faithfully (IEEE `-0.0 == 0.0` corresponds to
  `(-0 : Rat) = 0`).
* Fallible operations return `Except`; control flow for `return` is the
  `Jmp.ret` variant of the error channel, exactly like the source's
  `ErrorOrCtxJmp::RetJump`. Because the source mutates interpreter state
  in place even on the error path, every evaluator function returns the
  possibly-updated state alongside the `Except` result.
* Recursive execution is indexed by explicit fuel; exhausting fuel yields
  the distinguished `RError.outOfFuel`, which stands for non-termination
  and is never produced by the claims' runs.
-/

namespace Lox

/-- Identifier from `src/ast/src/ast.rs`: the source stores a `Token`
(lexeme plus source position) and a resolution id `rid`. `ident` is the
token's lexeme; `rid` plays the role of the per-occurrence identity (the
source position / uuid tag that makes distinct occurrences of the same
name distinct keys in the interpreter's `locals` table). -/
structure Identifier where
  ident : String
  rid : Nat
deriving DecidableEq, Repr

/-- `UnaryOp` from `src/ast/src/ast.rs`. -/
inductive UnaryOp where
  | minus
  | not
deriving DecidableEq, Repr

/-- `BinaryOp` from `src/ast/src/ast.rs`. -/
inductive BinaryOp where
  | add
  | sub
  | mul
  | div
  | lt
  | gt
  | eq
  | le
  | ge
  | ne
  | or
  | and
deriving DecidableEq, Repr

mutual

/-- `Expr` from `src/ast/src/ast.rs`. `Arguments = Vec<Argument>` where
`Argument` is a transparent wrapper around `Expr`, so `call` carries
`List Expr` directly. -/
inductive Expr where
  | nil
  | int (i : Int)
  | float (q : Rat)
  | boolean (b : Bool)
  | ident (id : Identifier)
  | str (s : String)
  | unary (op : UnaryOp) (e : Expr)
  | binary (op : BinaryOp) (e1 e2 : Expr)
  | assign (target : Expr) (e : Expr)
  | logical (op : BinaryOp) (e1 e2 : Expr)
  | call (callee : Expr) (args : List Expr)
  | lambda (params : List Identifier) (body : List Stmt)
  | get (obj : Expr) (prop : Identifier)
  | set (obj : Expr) (prop : Identifier) (v : Expr)
  | this (id : Identifier)
  | superGet (sup : Identifier) (method : Identifier)
deriving BEq

/-- `FunctionDecl` from `src/ast/src/ast.rs`. -/
inductive FunctionDecl where
  | mk (name : Identifier) (params : List Identifier) (body : List Stmt)
deriving BEq

/-- `Stmt` from `src/ast/src/ast.rs` (lines 198-209 of the `lox_ast`
crate; this revision has no `Break` statement). -/
inductive Stmt where
  | print (e : Expr)
  | expr (e : Expr)
  | varDecl (name : Identifier) (definition : Option Expr)
  | block (stmts : List Stmt)
  | conditional (cond : Expr) (ifBranch : Stmt) (elseBranch : Option Stmt)
  | loop (cond : Expr) (body : Stmt)
  | funDecl (f : FunctionDecl)
  | ret (e : Expr)
  | classDecl (name : Identifier) (superClass : Option Expr)
      (methods : List FunctionDecl)
deriving BEq

end

namespace FunctionDecl

def name : FunctionDecl → Identifier
  | .mk n _ _ => n

def params : FunctionDecl → List Identifier
  | .mk _ p _ => p

def body : FunctionDecl → List Stmt
  | .mk _ _ b => b

end FunctionDecl

mutual

/-- `Object` from `src/ast/src/ast.rs`: the runtime value. Instances are
`Rc<RefCell<ClassInstance>>` in the source; here `instance` carries the
index of the instance's cell in the instance store. -/
inductive Object where
  | nil
  | int (i : Int)
  | float (q : Rat)
  | boolean (b : Bool)
  | str (s : String)
  | function (f : FuncObject)
  | klass (c : ClassObject)
  | instance (i : Nat)

/-- `FuncObject` from `src/ast/src/ast.rs`: optional name, parameters,
body, captured environment (an index into the environment store — the
source's `closure: Env`) and the initializer flag. -/
inductive FuncObject where
  | mk (name : Option Identifier) (params : List Identifier)
      (body : List Stmt) (closure : Nat) (is_init : Bool)

/-- One `(String, FuncObject)` entry of the source's
`methods: HashMap<String, FuncObject>`. -/
inductive MethodEntry where
  | mk (name : String) (func : FuncObject)

/-- `ClassObject` from `src/ast/src/ast.rs`: name, optional boxed
superclass, method table. -/
inductive ClassObject where
  | mk (name : Identifier) (superClass : Option ClassObject)
      (methods : List MethodEntry)

end

namespace FuncObject

def name : FuncObject → Option Identifier
  | .mk n _ _ _ _ => n

def params : FuncObject → List Identifier
  | .mk _ p _ _ _ => p

def body : FuncObject → List Stmt
  | .mk _ _ b _ _ => b

def closure : FuncObject → Nat
  | .mk _ _ _ c _ => c

def is_initializer : FuncObject → Bool
  | .mk _ _ _ _ i => i

end FuncObject

namespace MethodEntry

def name : MethodEntry → String
  | .mk n _ => n

def func : MethodEntry → FuncObject
  | .mk _ f => f

end MethodEntry

namespace ClassObject

def name : ClassObject → Identifier
  | .mk n _ _ => n

def superClass : ClassObject → Option ClassObject
  | .mk _ s _ => s

def methods : ClassObject → List MethodEntry
  | .mk _ _ m => m

end ClassObject

/-- `HashMap::get` on a method table. -/
def methodsGet : List MethodEntry → String → Option FuncObject
  | [], _ => none
  | .mk n f :: rest, p => if n = p then some f else methodsGet rest p

/-- `ClassObject::find_method` (`src/ast/src/ast.rs` lines 312-323): own
method table first, then the superclass chain — first match wins. -/
def ClassObject.find_method : ClassObject → String → Option FuncObject
  | .mk _ sup ms, property =>
    match methodsGet ms property with
    | some f => some f
    | none =>
      match sup with
      | some s => ClassObject.find_method s property
      | none => none

/-- `Object::is_truth` (`src/ast/src/ast.rs` lines 405-409): everything
but `Nil` and `false` is truthy. -/
def Object.is_truth : Object → Bool
  | .nil => false
  | .boolean false => false
  | _ => true

/-- The resolver's `expr != &Expr::Nil` comparison
(`src/interpreter/src/resolver.rs` line 120): `PartialEq` against the
payload-free `Expr::Nil` variant is exactly a constructor test. -/
def Expr.isNil : Expr → Bool
  | .nil => true
  | _ => false

/-- `HashMap::insert`/`BTreeMap::insert` semantics on an association
list: replace the value of an existing key, otherwise add the entry. -/
def upsert {κ α : Type} [DecidableEq κ] (k : κ) (v : α) :
    List (κ × α) → List (κ × α)
  | [] => [(k, v)]
  | (k', v') :: rest =>
    if k' = k then (k, v) :: rest else (k', v') :: upsert k v rest

/-- `EnvInner` from `src/ast/src/env.rs`: one lexical scope. `values`
maps a variable name to `Option` of a cell index (the source's
`Option<Rc<RefCell<Object>>>`; `none` is a declared-but-uninitialized
binding); `enclosing` is the parent scope's index in the environment
store. -/
structure EnvData where
  values : List (String × Option Nat)
  enclosing : Option Nat
deriving Repr

/-- `ClassInstance` from `src/ast/src/ast.rs`: class back-reference plus
field map. -/
structure InstData where
  klass : ClassObject
  fields : List (String × Object)

/-- The mutable world of the interpreter. `envs`, `cells` and `insts`
are the stores backing the source's `Rc<RefCell<...>>` environments,
variable cells and instances (allocation appends, so an index names the
same cell forever). `env`, `envStack` and `locals` are the fields of the
source's `Interpreter` (`src/src/interpreter.rs` lines 17-23): current
environment, the `save_env`/`reset_env` stack, and the resolution table
keyed by the identifier occurrence's `rid`. `output` is the byte sink the
`print` statement writes to. -/
structure St where
  envs : List EnvData
  cells : List Object
  insts : List InstData
  env : Nat
  envStack : List Nat
  locals : List (Nat × Nat)
  output : String

/-- `EnvErrorKind` from `src/ast/src/lib.rs` lines 61-77. -/
inductive EnvErrorKind where
  | undefinedVariable (id : Identifier)
  | noEnclosingEnv
  | undefinedProperty (p : String)
  | variableExists (id : Identifier)
  | uninitializedVariableAccessed (id : Identifier)
deriving DecidableEq, Repr

/-- `new_env` (`src/ast/src/lib.rs` lines 19-21): allocate a fresh scope
with no enclosing scope; returns its index. -/
def new_env (st : St) : Nat × St :=
  (st.envs.length, { st with envs := st.envs ++ [⟨[], none⟩] })

/-- `push_env` (`src/ast/src/lib.rs` lines 23-25, via
`EnvInner::detach_env`): allocate a fresh empty scope whose enclosing
scope is `parent`; returns its index. -/
def push_env (st : St) (parent : Nat) : Nat × St :=
  (st.envs.length, { st with envs := st.envs ++ [⟨[], some parent⟩] })

/-- `pop_env` (`src/ast/src/lib.rs` lines 27-33): the enclosing scope;
the source panics (`expect`) when there is none, which callers surface
as the internal-error result modelled at the call sites. -/
def pop_env (st : St) (e : Nat) : Option Nat :=
  (st.envs.get? e).bind (·.enclosing)

/-- `EnvInner::init_variable` (`src/ast/src/env.rs` lines 53-55):
unconditionally bind `name` in scope `e` to a fresh cell holding `o`. -/
def init_variable (st : St) (e : Nat) (name : String) (o : Object) : St :=
  match st.envs.get? e with
  | none => st
  | some ed =>
    let cellId := st.cells.length
    { st with
      cells := st.cells ++ [o]
      envs := st.envs.set e { ed with values := upsert name (some cellId) ed.values } }

/-- `EnvInner::declare_variable` (`src/ast/src/env.rs` lines 37-43):
introduce `id` in scope `e` with an empty cell (`None`); error if the
name is already present in this scope. -/
def declare_variable (st : St) (e : Nat) (id : Identifier) :
    Except EnvErrorKind St :=
  match st.envs.get? e with
  | none => .error .noEnclosingEnv
  | some ed =>
    if (List.lookup id.ident ed.values).isSome then
      .error (.variableExists id)
    else
      .ok { st with
            envs := st.envs.set e { ed with values := upsert id.ident none ed.values } }

/-- `EnvInner::_get_env` (`src/ast/src/env.rs` lines 61-76): walk exactly
`up` enclosing links from scope `e`; at the target, the name must be
present (initialized or not), else `UndefinedVariable`; running out of
links is `NoEnclosingEnv`. Returns the index of the target scope. -/
def _get_env (st : St) (e : Nat) (id : Identifier) : Nat → Except EnvErrorKind Nat
  | 0 =>
    match st.envs.get? e with
    | some ed =>
      if (List.lookup id.ident ed.values).isSome then .ok e
      else .error (.undefinedVariable id)
    | none => .error .noEnclosingEnv
  | up + 1 =>
    match st.envs.get? e with
    | some ed =>
      match ed.enclosing with
      | some p => _get_env st p id up
      | none => .error .noEnclosingEnv
    | none => .error .noEnclosingEnv

/-- `get_env` (`src/ast/src/lib.rs` lines 35-46): find the target scope
with `_get_env`, then return the cell bound to the name there;
a present-but-empty binding is the `UnintializedVariableAccessed`
error. Returns the cell's index (the source returns the
`Rc<RefCell<Object>>` itself). -/
def get_env (st : St) (e : Nat) (id : Identifier) (up : Nat) :
    Except EnvErrorKind Nat :=
  match _get_env st e id up with
  | .error er => .error er
  | .ok t =>
    match st.envs.get? t with
    | none => .error .noEnclosingEnv
    | some ed =>
      match List.lookup id.ident ed.values with
      | some (some c) => .ok c
      | some none => .error (.uninitializedVariableAccessed id)
      | none => .error (.undefinedVariable id)

/-- `assign_env` (`src/ast/src/lib.rs` lines 48-59): find the target
scope with `_get_env`, then overwrite the name's binding there with a
freshly allocated cell holding `value`
(`*old_value = Some(Rc::new(RefCell::new(value)))` — the previous cell
is replaced in the map, not mutated through). -/
def assign_env (st : St) (e : Nat) (id : Identifier) (up : Nat)
    (value : Object) : Except EnvErrorKind St :=
  match _get_env st e id up with
  | .error er => .error er
  | .ok t =>
    match st.envs.get? t with
    | none => .error .noEnclosingEnv
    | some ed =>
      let newCell := st.cells.length
      .ok { st with
            cells := st.cells ++ [value]
            envs := st.envs.set t { ed with values := upsert id.ident (some newCell) ed.values } }

/-- Rendering of a float for `Display`. The source prints an `f64` with
Rust's `{}` formatter; the embedding renders its `Rat` model as a bare
numeral string (sign and digits, plus a denominator where the value is
not an integer) — like the source's, it contains no quote character. -/
def ratRepr (q : Rat) : String :=
  if q.den = 1 then toString q.num
  else toString q.num ++ "/" ++ toString q.den

/-- `Display for Object` (`src/ast/src/ast.rs` lines 389-402): `nil`,
bare numbers, `true`/`false`, strings wrapped in double quotes,
`<fn name>`/`<closure>` for functions, `<class name>` for classes and
`<instance@ClassName>` for instances (the class name is read through the
instance cell, hence the store argument). -/
def displayObject (st : St) : Object → String
  | .nil => "nil"
  | .int i => toString i
  | .float q => ratRepr q
  | .boolean b => if b then "true" else "false"
  | .str s => "\"" ++ s ++ "\""
  | .function f =>
    match f.name with
    | some n => "<fn " ++ n.ident ++ ">"
    | none => "<closure>"
  | .klass c => "<class " ++ c.name.ident ++ ">"
  | .instance i =>
    match st.insts.get? i with
    | some d => "<instance@" ++ d.klass.name.ident ++ ">"
    | none => "<instance@?>"

/-- `PartialEq for FuncObject` (`src/ast/src/ast.rs` lines 260-264):
functions compare by name, parameters and body only — the captured
environment is ignored. -/
def funcObjectBEq (f g : FuncObject) : Bool :=
  f.name == g.name && f.params == g.params && f.body == g.body

mutual

/-- Derived `PartialEq for ClassObject`: name, superclass chain and
method table. The source's method table is a `HashMap` compared without
order; the embedding compares the entry list in construction order
(classes are only ever built from the declaration's method list, so the
order is determined). -/
def classObjectBEq : ClassObject → ClassObject → Bool
  | .mk n1 s1 m1, .mk n2 s2 m2 =>
    n1 == n2 && superBEq s1 s2 && methodListBEq m1 m2

def superBEq : Option ClassObject → Option ClassObject → Bool
  | none, none => true
  | some a, some b => classObjectBEq a b
  | _, _ => false

def methodListBEq : List MethodEntry → List MethodEntry → Bool
  | [], [] => true
  | .mk n1 f1 :: r1, .mk n2 f2 :: r2 =>
    n1 == n2 && funcObjectBEq f1 f2 && methodListBEq r1 r2
  | _, _ => false

end

/-- Derived `PartialEq for Object` (`src/ast/src/ast.rs` line 377):
different variants are unequal (so `1 == "1"` and `1 == 1.0` are both
`false`); primitives compare structurally. The source compares two
instances by their contents through the `Rc` (which can diverge on
cyclic instances); the embedding compares instances by their store cell
— no claim under verification compares instances. -/
def objBEq : Object → Object → Bool
  | .nil, .nil => true
  | .int a, .int b => a == b
  | .float a, .float b => a == b
  | .boolean a, .boolean b => a == b
  | .str a, .str b => a == b
  | .function f, .function g => funcObjectBEq f g
  | .klass c, .klass d => classObjectBEq c d
  | .instance i, .instance j => i == j
  | _, _ => false

/-- The runtime error payloads: one variant per `anyhow!` message of
`evaluator.rs`, `callable.rs` and `interpreter.rs`, plus the
`ErrorOrCtxJmp::EnvError` embedding of `EnvErrorKind`, a variant for
source-side panics (`unreachable!`, `expect`) and the fuel marker that
stands for non-termination. -/
inductive RError where
  | operandMustBeANumber
  | operandsMustBeNumbers
  | operandsMustBeTwoNumbersOrTwoStrings
  | cannotDivideByZero
  | unexpectedBinaryOp (op : BinaryOp)
  | onlyInstancesHaveProperties
  | onlyInstancesHaveFields
  | undefinedPropertyAt (p : String)
  | expectedArguments (expected got : Nat)
  | canOnlyCallFunctionsAndClasses
  | superclassMustBeAClass
  | unableToWrite
  | envError (e : EnvErrorKind)
  | internalPanic
  | outOfFuel
deriving DecidableEq, Repr

/-- The message text carried by each runtime error (the `anyhow!` format
strings of the source; `envError` keeps the `EnvErrorKind` display of
`src/ast/src/lib.rs`). -/
def renderRError : RError → String
  | .operandMustBeANumber => "Operand must be a number."
  | .operandsMustBeNumbers => "Operands must be numbers."
  | .operandsMustBeTwoNumbersOrTwoStrings => "Operands must be two numbers or two strings."
  | .cannotDivideByZero => "Cannot divide by 0."
  | .unexpectedBinaryOp _ => "unexpected binary operation"
  | .onlyInstancesHaveProperties => "Only instances have properties."
  | .onlyInstancesHaveFields => "Only instances have fields."
  | .undefinedPropertyAt p => "Undefined property '" ++ p ++ "'."
  | .expectedArguments expected got =>
    "Expected " ++ toString expected ++ " arguments but got " ++ toString got ++ "."
  | .canOnlyCallFunctionsAndClasses => "Can only call functions and classes."
  | .superclassMustBeAClass => "Superclass must be a class."
  | .unableToWrite => "unable to write"
  | .envError (.undefinedVariable id) => "Error: Undefined variable '" ++ id.ident ++ "'."
  | .envError .noEnclosingEnv => "Error: Enclosing environment does not exist."
  | .envError (.undefinedProperty p) => "Undefined property '" ++ p ++ "'."
  | .envError (.variableExists id) =>
    "Error at '" ++ id.ident ++ "': Already a variable with this name in this scope."
  | .envError (.uninitializedVariableAccessed id) =>
    "Error at '" ++ id.ident ++ "': Accessed an unintialized variable '" ++ id.ident ++ "'."
  | .internalPanic => "internal panic"
  | .outOfFuel => "out of fuel"

/-- `ErrorOrCtxJmp` (`src/interpreter/src/lib.rs` lines 112-128) as seen
by the executor: a genuine error, or the out-of-band `RetJump` signal
carrying the returned value. -/
inductive Jmp where
  | err (e : RError)
  | ret (o : Object)

/-- `Modelled from the spec:` the `interpreter/src/interpreter.rs` module
of the `lox_interpreter` crate is absent from the sources (only its
callers are present), and it is the sole definition site of
`Interpreter::get_distance`. Per the spec, the evaluator "consults
Environment using resolver-computed distances" and the resolution table
is "keyed by a stable per-AST-node identity"; accordingly this returns
the distance the resolver recorded for this occurrence's `rid`. -/
def get_distance (st : St) (id : Identifier) : Nat :=
  (st.locals.lookup id.rid).getD 0

/-- `Interpreter::resolve` (`src/src/interpreter.rs` lines 153-155):
record the resolved distance for one identifier occurrence in the
`locals` table (keyed there by the identifier's per-occurrence identity;
here by its `rid`). -/
def interpResolve (st : St) (id : Identifier) (distance : Nat) : St :=
  { st with locals := upsert id.rid distance st.locals }

/-- `FuncObject::bind` (`src/ast/src/ast.rs` lines 249-258): extend the
function's closure by one fresh scope in which `this` is bound to the
instance, and return a copy of the function capturing that scope (the
source returns `Ok(Self { closure: env, ..f })`; the operation cannot
fail). -/
def FuncObject.bind (f : FuncObject) (inst : Nat) (st : St) : FuncObject × St :=
  let (e, st1) := push_env st f.closure
  let st2 := init_variable st1 e "this" (.instance inst)
  (.mk f.name f.params f.body e f.is_initializer, st2)

/-- `ClassInstance::get` (`src/ast/src/ast.rs` lines 358-369): the
instance's own field first, then a method found along the class chain,
freshly bound to the instance; otherwise `UndefinedProperty`. -/
def instGet (st : St) (property : String) (i : Nat) :
    Except EnvErrorKind (Object × St) :=
  match st.insts.get? i with
  | none => .error (.undefinedProperty property)
  | some d =>
    match List.lookup property d.fields with
    | some o => .ok (o, st)
    | none =>
      match d.klass.find_method property with
      | some m =>
        let (bf, st1) := FuncObject.bind m i st
        .ok (.function bf, st1)
      | none => .error (.undefinedProperty property)

/-- `ClassInstance::set` (`src/ast/src/ast.rs` lines 371-374): insert or
overwrite a field. -/
def instSet (st : St) (i : Nat) (property : String) (v : Object) : St :=
  match st.insts.get? i with
  | none => st
  | some d =>
    { st with insts := st.insts.set i { d with fields := upsert property v d.fields } }

/-- `Arity for FuncObject` (`src/interpreter/src/callable.rs` lines
20-25): the parameter count. -/
def funcArity (f : FuncObject) : Nat :=
  f.params.length

/-- `Arity for ClassObject` (`src/interpreter/src/callable.rs` lines
27-36): the `init` method's parameter count, found through the
inheritance chain, or `0` when there is no initializer. -/
def classArity (c : ClassObject) : Nat :=
  match c.find_method "init" with
  | some m => funcArity m
  | none => 0

/-- The `Expr::Unary` arms of `Evaluator::evaluate`
(`src/interpreter/src/evaluator.rs` lines 39-46). -/
def evalUnary : UnaryOp → Object → Except RError Object
  | .minus, .int i => .ok (.int (-i))
  | .minus, .float f => .ok (.float (-f))
  | .not, o => .ok (.boolean (!o.is_truth))
  | .minus, _ => .error .operandMustBeANumber

/-- The `Expr::Binary` match of `Evaluator::evaluate`
(`src/interpreter/src/evaluator.rs` lines 47-104), arm for arm. The
source places the two zero-divisor guard arms
(`(Div, Float(_) | Int(_), Int(0))` and the `f == 0.0` guard) before the
per-kind division arms; here each division arm carries the equivalent
zero test. `Int.tdiv` is Rust `i64` division (truncation toward zero).
Mixed `Int`/`Float` comparisons fall through to the
`Operands must be numbers.` arm exactly as in the source, and the final
arm (reached by `Or`/`And` appearing as a `Binary` op) is the
`unexpected binary operation` error. -/
def evalBinary : BinaryOp → Object → Object → Except RError Object
  | .add, .str a, .str b => .ok (.str (a ++ b))
  | .add, .int a, .int b => .ok (.int (a + b))
  | .add, .int a, .float b => .ok (.float ((a : Rat) + b))
  | .add, .float a, .int b => .ok (.float (a + (b : Rat)))
  | .add, .float a, .float b => .ok (.float (a + b))
  | .add, _, _ => .error .operandsMustBeTwoNumbersOrTwoStrings
  | .sub, .int a, .int b => .ok (.int (a - b))
  | .sub, .int a, .float b => .ok (.float ((a : Rat) - b))
  | .sub, .float a, .int b => .ok (.float (a - (b : Rat)))
  | .sub, .float a, .float b => .ok (.float (a - b))
  | .mul, .int a, .int b => .ok (.int (a * b))
  | .mul, .int a, .float b => .ok (.float ((a : Rat) * b))
  | .mul, .float a, .int b => .ok (.float (a * (b : Rat)))
  | .mul, .float a, .float b => .ok (.float (a * b))
  | .div, .int a, .int b =>
    if b = 0 then .error .cannotDivideByZero else .ok (.int (Int.tdiv a b))
  | .div, .int a, .float b =>
    if b = 0 then .error .cannotDivideByZero else .ok (.float ((a : Rat) / b))
  | .div, .float a, .int b =>
    if b = 0 then .error .cannotDivideByZero else .ok (.float (a / (b : Rat)))
  | .div, .float a, .float b =>
    if b = 0 then .error .cannotDivideByZero else .ok (.float (a / b))
  | .lt, .int a, .int b => .ok (.boolean (decide (a < b)))
  | .gt, .int a, .int b => .ok (.boolean (decide (a > b)))
  | .le, .int a, .int b => .ok (.boolean (decide (a ≤ b)))
  | .ge, .int a, .int b => .ok (.boolean (decide (a ≥ b)))
  | .lt, .float a, .float b => .ok (.boolean (decide (a < b)))
  | .gt, .float a, .float b => .ok (.boolean (decide (a > b)))
  | .le, .float a, .float b => .ok (.boolean (decide (a ≤ b)))
  | .ge, .float a, .float b => .ok (.boolean (decide (a ≥ b)))
  | .eq, a, b => .ok (.boolean (objBEq a b))
  | .ne, a, b => .ok (.boolean (!objBEq a b))
  | .sub, _, _ => .error .operandsMustBeNumbers
  | .mul, _, _ => .error .operandsMustBeNumbers
  | .div, _, _ => .error .operandsMustBeNumbers
  | .lt, _, _ => .error .operandsMustBeNumbers
  | .gt, _, _ => .error .operandsMustBeNumbers
  | .le, _, _ => .error .operandsMustBeNumbers
  | .ge, _, _ => .error .operandsMustBeNumbers
  | op, _, _ => .error (.unexpectedBinaryOp op)

/-- The parameter-binding loop of `FuncObject::call`
(`src/interpreter/src/callable.rs` lines 71-79): `init_variable` each
`(param, arg)` pair of the zip into the current call scope. -/
def bindParams (st : St) : List Identifier → List Object → St
  | p :: ps, a :: rest => bindParams (init_variable st st.env p.ident a) ps rest
  | _, _ => st

/-- Construction of a class declaration's method table
(`src/src/interpreter.rs` lines 122-142): each declared method becomes a
`FuncObject` named after it, closing over the current environment, with
the initializer flag set exactly for the method named `init`. -/
def mkMethods (ms : List FunctionDecl) (closureEnv : Nat) : List MethodEntry :=
  ms.map fun m =>
    .mk m.name.ident (.mk (some m.name) m.params m.body closureEnv (m.name.ident == "init"))

/-- `save_env` (`src/src/interpreter.rs` lines 164-167): push the current
environment on the interpreter's stack and switch to `e`. -/
def save_env (st : St) (e : Nat) : St :=
  { st with envStack := st.env :: st.envStack, env := e }

/-- `push_scope` (`src/src/interpreter.rs` lines 176-178): replace the
current environment by a fresh child of it. -/
def push_scope (st : St) : St :=
  let (e, st1) := push_env st st.env
  { st1 with env := e }

mutual

/-- `Evaluator::evaluate` (`src/interpreter/src/evaluator.rs` lines
19-205), case for case. `env` is the environment argument the source
threads by `Rc::clone`; the interpreter's own current environment is
`st.env` (they coincide at statement level but the `lambda` case reads
`interpreter.env`, exactly as the source does on line 146). Fuel
exhaustion stands for non-termination. -/
def evalExpr : Nat → Expr → Nat → St → Except Jmp Object × St
  | 0, _, _, st => (.error (.err .outOfFuel), st)
  | _ + 1, .nil, _, st => (.ok .nil, st)
  | _ + 1, .int i, _, st => (.ok (.int i), st)
  | _ + 1, .float q, _, st => (.ok (.float q), st)
  | _ + 1, .boolean b, _, st => (.ok (.boolean b), st)
  | _ + 1, .str s, _, st => (.ok (.str s), st)
  | _ + 1, .ident id, env, st | _ + 1, .this id, env, st =>
    match get_env st env id (get_distance st id) with
    | .error e => (.error (.err (.envError e)), st)
    | .ok c =>
      match st.cells.get? c with
      | some o => (.ok o, st)
      | none => (.error (.err .internalPanic), st)
  | n + 1, .unary op e, env, st =>
    (match evalExpr n e env st with
     | (.error j, st1) => (.error j, st1)
     | (.ok o, st1) =>
       match evalUnary op o with
       | .ok r => (.ok r, st1)
       | .error er => (.error (.err er), st1))
  | n + 1, .binary op e1 e2, env, st =>
    (match evalExpr n e1 env st with
     | (.error j, st1) => (.error j, st1)
     | (.ok o1, st1) =>
       match evalExpr n e2 env st1 with
       | (.error j, st2) => (.error j, st2)
       | (.ok o2, st2) =>
         match evalBinary op o1 o2 with
         | .ok r => (.ok r, st2)
         | .error er => (.error (.err er), st2))
  | n + 1, .assign target e, env, st =>
    (match target with
     | .ident id =>
       let distance := get_distance st id
       match evalExpr n e env st with
       | (.error j, st1) => (.error j, st1)
       | (.ok v, st1) =>
         match assign_env st1 env id distance v with
         | .ok st2 => (.ok v, st2)
         | .error er => (.error (.err (.envError er)), st1)
     | _ => (.error (.err .internalPanic), st))
  | n + 1, .logical op e1 e2, env, st =>
    (match op with
     | .and =>
       (match evalExpr n e1 env st with
        | (.error j, st1) => (.error j, st1)
        | (.ok v, st1) =>
          if !v.is_truth then (.ok v, st1) else evalExpr n e2 env st1)
     | .or =>
       (match evalExpr n e1 env st with
        | (.error j, st1) => (.error j, st1)
        | (.ok v, st1) =>
          if v.is_truth then (.ok v, st1) else evalExpr n e2 env st1)
     | _ => (.error (.err .internalPanic), st))
  | n + 1, .call callee args, env, st =>
    (match evalArgs n args env st with
     | (.error j, st1) => (.error j, st1)
     | (.ok vs, st1) =>
       match evalExpr n callee env st1 with
       | (.error j, st2) => (.error j, st2)
       | (.ok cv, st2) => callObject n cv vs st2)
  | _ + 1, .lambda params body, _, st =>
    (.ok (.function (.mk none params body st.env false)), st)
  | n + 1, .get obj prop, env, st =>
    (match evalExpr n obj env st with
     | (.error j, st1) => (.error j, st1)
     | (.ok o, st1) =>
       match o with
       | .instance i =>
         (match instGet st1 prop.ident i with
          | .ok (r, st2) => (.ok r, st2)
          | .error er => (.error (.err (.envError er)), st1))
       | _ => (.error (.err .onlyInstancesHaveProperties), st1))
  | n + 1, .set obj prop v, env, st =>
    (match evalExpr n obj env st with
     | (.error j, st1) => (.error j, st1)
     | (.ok o, st1) =>
       match o with
       | .instance i =>
         (match evalExpr n v env st1 with
          | (.error j, st2) => (.error j, st2)
          | (.ok val, st2) => (.ok val, instSet st2 i prop.ident val))
       | _ => (.error (.err .onlyInstancesHaveFields), st1))
  | _ + 1, .superGet sup method, env, st =>
    -- `super` lookup: the distance recorded for the `super` occurrence,
    -- then `this` one scope closer (the source's `distance - 1` on a
    -- usize; `Nat` subtraction models the release-build behavior for
    -- the resolver-guaranteed `distance ≥ 1`). The `this` identifier is
    -- built from `Token::new(TokenType::This, ..)` whose lexeme is
    -- "this" and whose `rid` is the default `0`.
    (let distance := get_distance st sup
     match get_env st env sup distance with
     | .error er => (.error (.err (.envError er)), st)
     | .ok c =>
       match st.cells.get? c with
       | some (.klass sc) =>
         (match get_env st env ⟨"this", 0⟩ (distance - 1) with
          | .error er => (.error (.err (.envError er)), st)
          | .ok c2 =>
            match st.cells.get? c2 with
            | some (.instance i) =>
              (match sc.find_method method.ident with
               | some m =>
                 let (bf, st1) := FuncObject.bind m i st
                 (.ok (.function bf), st1)
               | none => (.error (.err (.undefinedPropertyAt method.ident)), st))
            | _ => (.error (.err .internalPanic), st))
       | _ => (.error (.err .internalPanic), st))

/-- The argument loop of `Expr::Call`
(`src/interpreter/src/evaluator.rs` lines 136-139): evaluate the
arguments left to right, aborting at the first error. -/
def evalArgs : Nat → List Expr → Nat → St → Except Jmp (List Object) × St
  | 0, _, _, st => (.error (.err .outOfFuel), st)
  | _ + 1, [], _, st => (.ok [], st)
  | n + 1, a :: rest, env, st =>
    (match evalExpr n a env st with
     | (.error j, st1) => (.error j, st1)
     | (.ok v, st1) =>
       match evalArgs n rest env st1 with
       | (.error j, st2) => (.error j, st2)
       | (.ok vs, st2) => (.ok (v :: vs), st2))

/-- `Callable for Object` (`src/interpreter/src/callable.rs` lines
127-139): dispatch to the function or class call; anything else is the
`Can only call functions and classes.` error. -/
def callObject : Nat → Object → List Object → St → Except Jmp Object × St
  | 0, _, _, st => (.error (.err .outOfFuel), st)
  | n + 1, .function f, args, st => funcCall n f args st
  | n + 1, .klass c, args, st => classCall n c args st
  | _ + 1, _, _, st => (.error (.err .canOnlyCallFunctionsAndClasses), st)

/-- The arity guard of `FuncObject::call`
(`src/interpreter/src/callable.rs` lines 59-66): an argument count
different from the parameter count is the
`Expected {} arguments but got {}.` error; otherwise the call proceeds
(`funcCallRun`, the remainder of the same source function). -/
def funcCall : Nat → FuncObject → List Object → St → Except Jmp Object × St
  | 0, _, _, st => (.error (.err .outOfFuel), st)
  | n + 1, f, args, st =>
    if args.length ≠ f.params.length then
      (.error (.err (.expectedArguments f.params.length args.length)), st)
    else funcCallRun n f args st

/-- The body of `FuncObject::call` after the arity guard
(`src/interpreter/src/callable.rs` lines 68-104): `save_env` to the
closure, `push_scope`, bind parameters, run the body (a `RetJump` is the
returned value, normal completion is `Nil`, a genuine error propagates
without restoring the environment —  the source's `e?`), then for an
initializer replace the result by `this` read one scope up from the call
scope, and finally `pop_scope` and `reset_env`. -/
def funcCallRun : Nat → FuncObject → List Object → St → Except Jmp Object × St
  | 0, _, _, st => (.error (.err .outOfFuel), st)
  | n + 1, f, args, st =>
    let st3 := push_scope (save_env st f.closure)
    let st4 := bindParams st3 f.params args
    (match runMany n f.body st4 with
     | (.error (.ret o), st5) => funcCallFinish f o st5
     | (.ok _, st5) => funcCallFinish f .nil st5
     | (.error j, st5) => (.error j, st5))

/-- The tail of `FuncObject::call` (`src/interpreter/src/callable.rs`
lines 90-103): the initializer fixup (`get_env(ctx.env, "this", 1)`),
then `pop_scope` (panic when the call scope has no enclosing scope) and
`reset_env` (panic when the saved-environment stack is empty). -/
def funcCallFinish (f : FuncObject) (result : Object) (st : St) :
    Except Jmp Object × St :=
  let fixed : Except Jmp Object :=
    if f.is_initializer then
      match get_env st st.env ⟨"this", 0⟩ 1 with
      | .error er => .error (Jmp.err (.envError er))
      | .ok c =>
        match st.cells.get? c with
        | some o => .ok o
        | none => .error (Jmp.err .internalPanic)
    else .ok result
  match fixed with
  | .error j => (.error j, st)
  | .ok r =>
    match pop_env st st.env with
    | none => (.error (.err .internalPanic), st)
    | some p =>
      match st.envStack with
      | [] => (.error (.err .internalPanic), { st with env := p })
      | top :: rest => (.ok r, { st with env := top, envStack := rest })

/-- `Callable for ClassObject` (`src/interpreter/src/callable.rs` lines
107-125): arity = constructor arity; allocate a fresh instance with an
empty field map; when an `init` method exists along the chain, bind it
to the new instance and call it, discarding its result; the call's value
is the instance. -/
def classCall : Nat → ClassObject → List Object → St → Except Jmp Object × St
  | 0, _, _, st => (.error (.err .outOfFuel), st)
  | n + 1, c, args, st =>
    if args.length ≠ classArity c then
      (.error (.err (.expectedArguments (classArity c) args.length)), st)
    else
      let instId := st.insts.length
      let st1 := { st with insts := st.insts ++ [⟨c, []⟩] }
      match c.find_method "init" with
      | some m =>
        let (bf, st2) := FuncObject.bind m instId st1
        (match funcCall n bf args st2 with
         | (.error j, st3) => (.error j, st3)
         | (.ok _, st3) => (.ok (.instance instId), st3))
      | none => (.ok (.instance instId), st1)

/-- `Interpreter::run` (`src/src/interpreter.rs` lines 35-151, the
statement runner revision present in the sources, executed against the
`lox_ast` environment API), statement for statement: `print` writes the
display of the value plus a newline to the output sink (the sink is
modelled as always succeeding, so the source's `unable to write` error
is not produced); declarations bind in the current scope; `block` runs
in a fresh child scope (an error propagates without popping — the
source's `?`); `return` raises the `RetJump` signal. -/
def runStmt : Nat → Stmt → St → Except Jmp Unit × St
  | 0, _, st => (.error (.err .outOfFuel), st)
  | n + 1, .print e, st =>
    (match evalExpr n e st.env st with
     | (.error j, st1) => (.error j, st1)
     | (.ok o, st1) =>
       (.ok (), { st1 with output := st1.output ++ displayObject st1 o ++ "\n" }))
  | n + 1, .expr e, st =>
    (match evalExpr n e st.env st with
     | (.error j, st1) => (.error j, st1)
     | (.ok _, st1) => (.ok (), st1))
  | n + 1, .varDecl name definition, st =>
    (match evalExpr n (definition.getD .nil) st.env st with
     | (.error j, st1) => (.error j, st1)
     | (.ok v, st1) => (.ok (), init_variable st1 st1.env name.ident v))
  | n + 1, .block stmts, st =>
    (match runMany n stmts (push_scope st) with
     | (.error j, st1) => (.error j, st1)
     | (.ok _, st1) =>
       match pop_env st1 st1.env with
       | some p => (.ok (), { st1 with env := p })
       | none => (.error (.err .internalPanic), st1))
  | n + 1, .conditional cond ifB elseB, st =>
    (match evalExpr n cond st.env st with
     | (.error j, st1) => (.error j, st1)
     | (.ok c, st1) =>
       if c.is_truth then runStmt n ifB st1
       else
         match elseB with
         | some eb => runStmt n eb st1
         | none => (.ok (), st1))
  | n + 1, .loop cond body, st => runLoop n cond body st
  | _ + 1, .funDecl (.mk name params body), st =>
    (.ok (), init_variable st st.env name.ident
      (.function (.mk (some name) params body st.env false)))
  | n + 1, .ret e, st =>
    (match evalExpr n e st.env st with
     | (.error j, st1) => (.error j, st1)
     | (.ok v, st1) => (.error (.ret v), st1))
  | n + 1, .classDecl name superE methods, st =>
    (match superE with
     | some se =>
       (match evalExpr n se st.env st with
        | (.error j, st1) => (.error j, st1)
        | (.ok o, st1) =>
          match o with
          | .klass sc =>
            -- superclass scope: bind `super`, build the methods closing
            -- over it, pop, then bind the class name in the enclosing
            -- scope
            let st2 := push_scope st1
            let st3 := init_variable st2 st2.env "super" (.klass sc)
            let cls := ClassObject.mk name (some sc) (mkMethods methods st3.env)
            (match pop_env st3 st3.env with
             | some p =>
               let st4 := { st3 with env := p }
               (.ok (), init_variable st4 st4.env name.ident (.klass cls))
             | none => (.error (.err .internalPanic), st3))
          | _ => (.error (.err .superclassMustBeAClass), st1))
     | none =>
       let cls := ClassObject.mk name none (mkMethods methods st.env)
       (.ok (), init_variable st st.env name.ident (.klass cls)))

/-- `Interpreter::run_many` (`src/src/interpreter.rs` lines 157-162):
run the statements in order, aborting at the first signal. -/
def runMany : Nat → List Stmt → St → Except Jmp Unit × St
  | 0, _, st => (.error (.err .outOfFuel), st)
  | _ + 1, [], st => (.ok (), st)
  | n + 1, s :: rest, st =>
    (match runStmt n s st with
     | (.error j, st1) => (.error j, st1)
     | (.ok _, st1) => runMany n rest st1)

/-- The `Stmt::Loop` loop of `Interpreter::run`
(`src/src/interpreter.rs` lines 74-80): re-evaluate the condition, stop
when falsy, else run the body and iterate. -/
def runLoop : Nat → Expr → Stmt → St → Except Jmp Unit × St
  | 0, _, _, st => (.error (.err .outOfFuel), st)
  | n + 1, cond, body, st =>
    (match evalExpr n cond st.env st with
     | (.error j, st1) => (.error j, st1)
     | (.ok c, st1) =>
       if !c.is_truth then (.ok (), st1)
       else
         match runStmt n body st1 with
         | (.error j, st2) => (.error j, st2)
         | (.ok _, st2) => runLoop n cond body st2)

end

/-- `VariableState` from `src/interpreter/src/resolver.rs` lines 12-17. -/
inductive VariableState where
  | declared
  | defined
  | initialized
deriving DecidableEq, BEq, Repr

/-- `FunctionType` from `src/interpreter/src/resolver.rs` lines 19-25. -/
inductive FunctionType where
  | none
  | function
  | classMethod
  | initializer
deriving DecidableEq, Repr

/-- `ClassType` from `src/interpreter/src/resolver.rs` lines 27-31. -/
inductive ClassType where
  | none
  | cls
deriving DecidableEq, Repr

/-- `LoopType` from `src/interpreter/src/resolver.rs` lines 33-37. -/
inductive LoopType where
  | none
  | inLoop
deriving DecidableEq, Repr

/-- The resolution errors, one variant per error message of
`src/interpreter/src/resolver.rs`, plus the fuel marker. -/
inductive ResErr where
  | cantReadLocalInOwnInitializer (name : String)
  | alreadyAVariableWithThisName (name : String)
  | invalidAssignmentTarget
  | cantReturnFromTopLevel
  | cantReturnValueFromInitializer
  | cantUseThisOutsideClass
  | cantUseSuperOutsideClass
  | superInClassWithNoSuperclass
  | classCantInheritFromItself (name : String)
  | undefinedVariable (name : String)
  | accessedUninitializedVariable (name : String)
  | outOfFuel
deriving DecidableEq, Repr

/-- One lexical scope of the resolver: name → declaration state. -/
abbrev RScope := List (String × VariableState)

/-- `Resolver` from `src/interpreter/src/resolver.rs` lines 39-44. The
source keeps the scope stack in a `Vec` with the innermost scope last;
the embedding keeps the innermost scope at the head of the list (so
`begin_scope` is cons and the source's `scopes.last_mut()` is the
head). -/
structure Resolver where
  scopes : List RScope
  current_function : FunctionType
  current_class : ClassType
  current_loop : LoopType

/-- `Resolver::new` (`src/interpreter/src/resolver.rs` lines 52-60): the
stack starts with a single (global) scope already pushed. -/
def Resolver.new : Resolver :=
  ⟨[[]], .none, .none, .none⟩

/-- `Resolver::begin_scope`. -/
def Resolver.begin_scope (r : Resolver) : Resolver :=
  { r with scopes := [] :: r.scopes }

/-- `Resolver::end_scope`. -/
def Resolver.end_scope (r : Resolver) : Resolver :=
  { r with scopes := r.scopes.tail }

/-- `Resolver::declare` (`src/interpreter/src/resolver.rs` lines
343-354): error if the name is already present in the innermost scope,
else mark it `Declared` there. -/
def Resolver.declare (r : Resolver) (name : Identifier) : Except ResErr Resolver :=
  match r.scopes with
  | [] => .ok r
  | s :: rest =>
    if (List.lookup name.ident s).isSome then
      .error (.alreadyAVariableWithThisName name.ident)
    else
      .ok { r with scopes := upsert name.ident .declared s :: rest }

/-- `Resolver::define`: mark the name `Defined` in the innermost
scope. -/
def Resolver.define (r : Resolver) (name : Identifier) : Resolver :=
  match r.scopes with
  | [] => r
  | s :: rest => { r with scopes := upsert name.ident .defined s :: rest }

/-- `Resolver::init`: mark the name `Initialized` in the innermost
scope. -/
def Resolver.init (r : Resolver) (name : Identifier) : Resolver :=
  match r.scopes with
  | [] => r
  | s :: rest => { r with scopes := upsert name.ident .initialized s :: rest }

/-- The scope walk of `Resolver::resolve_local`
(`src/interpreter/src/resolver.rs` lines 282-310): innermost scope
outward with index `i`; at the first scope containing the name, reading
a not-yet-`Initialized` binding (when `check_initialized`) is an error,
otherwise the binding is marked `Initialized` and `i` is the resolved
distance. A name found in no scope is `Undefined variable` — except
`super`, which gets the no-superclass error. -/
def resolveLocalGo (name : String) (checkInit : Bool) :
    List RScope → Nat → Except ResErr (List RScope × Nat)
  | [], _ =>
    .error
      (if name = "super" then .superInClassWithNoSuperclass
       else .undefinedVariable name)
  | s :: rest, i =>
    match List.lookup name s with
    | some b =>
      if b != VariableState.initialized && checkInit then
        .error (.accessedUninitializedVariable name)
      else
        .ok (upsert name .initialized s :: rest, i)
    | none =>
      match resolveLocalGo name checkInit rest (i + 1) with
      | .ok (rest', d) => .ok (s :: rest', d)
      | .error e => .error e

/-- `Resolver::resolve_local` (`src/interpreter/src/resolver.rs` lines
276-311): walk the scope stack, then record the found distance for this
identifier occurrence in the interpreter's table
(`interpreter.resolve(id, i)`). -/
def resolve_local (r : Resolver) (st : St) (id : Identifier)
    (checkInit : Bool) : Except ResErr (Resolver × St) :=
  match resolveLocalGo id.ident checkInit r.scopes 0 with
  | .error e => .error e
  | .ok (scopes', d) =>
    .ok ({ r with scopes := scopes' }, interpResolve st id d)

mutual

/-- `Resolver::resolve_expr` (`src/interpreter/src/resolver.rs` lines
191-263), case for case. -/
def resolveExpr : Nat → Resolver → St → Expr → Except ResErr (Resolver × St)
  | 0, _, _, _ => .error .outOfFuel
  | _ + 1, r, st, .nil | _ + 1, r, st, .int _ | _ + 1, r, st, .float _
  | _ + 1, r, st, .boolean _ | _ + 1, r, st, .str _ => .ok (r, st)
  | _ + 1, r, st, .ident id =>
    -- reading a local inside its own initializer: the innermost scope
    -- holds the name still merely `Declared`
    (match r.scopes.head? with
     | some s =>
       (match List.lookup id.ident s with
        | some .declared => .error (.cantReadLocalInOwnInitializer id.ident)
        | _ => resolve_local r st id true)
     | none => resolve_local r st id true)
  | n + 1, r, st, .unary _ e => resolveExpr n r st e
  | n + 1, r, st, .binary _ e1 e2 | n + 1, r, st, .logical _ e1 e2 =>
    (match resolveExpr n r st e1 with
     | .error e => .error e
     | .ok (r1, st1) => resolveExpr n r1 st1 e2)
  | n + 1, r, st, .assign target e =>
    (match resolveExpr n r st e with
     | .error er => .error er
     | .ok (r1, st1) =>
       match target with
       | .ident id => resolve_local r1 st1 id false
       | _ => .error .invalidAssignmentTarget)
  | n + 1, r, st, .call callee args =>
    (match resolveExpr n r st callee with
     | .error e => .error e
     | .ok (r1, st1) => resolveExprs n r1 st1 args)
  | n + 1, r, st, .lambda params body =>
    resolveFunction n r st params body .function
  | n + 1, r, st, .get obj _ => resolveExpr n r st obj
  | n + 1, r, st, .set obj _ value =>
    (match resolveExpr n r st obj with
     | .error e => .error e
     | .ok (r1, st1) => resolveExpr n r1 st1 value)
  | _ + 1, r, st, .this id =>
    if r.current_class = ClassType.none then .error .cantUseThisOutsideClass
    else resolve_local r st id false
  | _ + 1, r, st, .superGet sup _ =>
    if r.current_class = ClassType.none then .error .cantUseSuperOutsideClass
    else resolve_local r st sup false

/-- The argument loop of the `Expr::Call` resolution case. -/
def resolveExprs : Nat → Resolver → St → List Expr → Except ResErr (Resolver × St)
  | 0, _, _, _ => .error .outOfFuel
  | _ + 1, r, st, [] => .ok (r, st)
  | n + 1, r, st, e :: rest =>
    (match resolveExpr n r st e with
     | .error er => .error er
     | .ok (r1, st1) => resolveExprs n r1 st1 rest)

/-- `Resolver::resolve_stmt` (`src/interpreter/src/resolver.rs` lines
62-189), case for case (this `Stmt` revision has no `Break`). -/
def resolveStmt : Nat → Resolver → St → Stmt → Except ResErr (Resolver × St)
  | 0, _, _, _ => .error .outOfFuel
  | n + 1, r, st, .print e | n + 1, r, st, .expr e => resolveExpr n r st e
  | n + 1, r, st, .varDecl name definition =>
    (match r.declare name with
     | .error e => .error e
     | .ok r1 =>
       match definition with
       | some e =>
         (match resolveExpr n r1 st e with
          | .error er => .error er
          | .ok (r2, st1) => .ok (r2.init name, st1))
       | none => .ok (r1.define name, st))
  | n + 1, r, st, .block stmts =>
    (match resolveStmts n r.begin_scope st stmts with
     | .error e => .error e
     | .ok (r1, st1) => .ok (r1.end_scope, st1))
  | n + 1, r, st, .conditional cond ifB elseB =>
    (match resolveExpr n r st cond with
     | .error e => .error e
     | .ok (r1, st1) =>
       match resolveStmt n r1 st1 ifB with
       | .error e => .error e
       | .ok (r2, st2) =>
         match elseB with
         | some eb => resolveStmt n r2 st2 eb
         | none => .ok (r2, st2))
  | n + 1, r, st, .loop cond body =>
    (let previousLoop := r.current_loop
     match resolveExpr n { r with current_loop := .inLoop } st cond with
     | .error e => .error e
     | .ok (r1, st1) =>
       match resolveStmt n r1 st1 body with
       | .error e => .error e
       | .ok (r2, st2) => .ok ({ r2 with current_loop := previousLoop }, st2))
  | n + 1, r, st, .funDecl (.mk name params body) =>
    resolveFunction n (r.init name) st params body .function
  | n + 1, r, st, .ret e =>
    if r.current_function = FunctionType.none then
      .error .cantReturnFromTopLevel
    else if r.current_function = FunctionType.initializer && !e.isNil then
      .error .cantReturnValueFromInitializer
    else resolveExpr n r st e
  | n + 1, r, st, .classDecl name superE methods =>
    (let r0 := r.init name
     let enclosingClass := r0.current_class
     let r1 := { r0 with current_class := ClassType.cls }
     match superE with
     | some se =>
       (let selfCheck : Except ResErr Unit :=
          match se with
          | .ident sc =>
            if sc.ident = name.ident then
              .error (ResErr.classCantInheritFromItself name.ident)
            else .ok ()
          | _ => .ok ()
        match selfCheck with
        | .error e => .error e
        | .ok () =>
          match resolveExpr n r1 st se with
          | .error e => .error e
          | .ok (r2, st1) =>
            -- scope binding `super`, then scope binding `this`
            let r3 :=
              match r2.begin_scope.scopes with
              | s :: rest =>
                { r2.begin_scope with scopes := upsert "super" .initialized s :: rest }
              | [] => r2.begin_scope
            let r4 :=
              match r3.begin_scope.scopes with
              | s :: rest =>
                { r3.begin_scope with scopes := upsert "this" .initialized s :: rest }
              | [] => r3.begin_scope
            match resolveMethods n r4 st1 methods with
            | .error e => .error e
            | .ok (r5, st2) =>
              .ok ({ r5.end_scope.end_scope with current_class := enclosingClass }, st2))
     | none =>
       let r4 :=
         match r1.begin_scope.scopes with
         | s :: rest =>
           { r1.begin_scope with scopes := upsert "this" .initialized s :: rest }
         | [] => r1.begin_scope
       match resolveMethods n r4 st methods with
       | .error e => .error e
       | .ok (r5, st2) =>
         .ok ({ r5.end_scope with current_class := enclosingClass }, st2))

/-- The method loop of the class-declaration resolution case: the method
named `init` resolves as an initializer, others as class methods. -/
def resolveMethods : Nat → Resolver → St → List FunctionDecl → Except ResErr (Resolver × St)
  | 0, _, _, _ => .error .outOfFuel
  | _ + 1, r, st, [] => .ok (r, st)
  | n + 1, r, st, .mk name params body :: rest =>
    (let declaration :=
       if name.ident = "init" then FunctionType.initializer
       else FunctionType.classMethod
     match resolveFunction n r st params body declaration with
     | .error e => .error e
     | .ok (r1, st1) => resolveMethods n r1 st1 rest)

/-- `Resolver::resolve` (`src/interpreter/src/resolver.rs` lines
265-274): resolve the statements in order. -/
def resolveStmts : Nat → Resolver → St → List Stmt → Except ResErr (Resolver × St)
  | 0, _, _, _ => .error .outOfFuel
  | _ + 1, r, st, [] => .ok (r, st)
  | n + 1, r, st, s :: rest =>
    (match resolveStmt n r st s with
     | .error e => .error e
     | .ok (r1, st1) => resolveStmts n r1 st1 rest)

/-- `Resolver::resolve_function` (`src/interpreter/src/resolver.rs`
lines 313-333): push a scope, bind every parameter as already
initialized, resolve the body under the given function kind, pop. -/
def resolveFunction : Nat → Resolver → St → List Identifier → List Stmt →
    FunctionType → Except ResErr (Resolver × St)
  | 0, _, _, _, _, _ => .error .outOfFuel
  | n + 1, r, st, params, body, ftype =>
    (let enclosingFunction := r.current_function
     let r1 := { r.begin_scope with current_function := ftype }
     let r2 := params.foldl (fun acc p => acc.init p) r1
     match resolveStmts n r2 st body with
     | .error e => .error e
     | .ok (r3, st1) =>
       .ok ({ r3.end_scope with current_function := enclosingFunction }, st1))

end

/-- `Interpreter::new` (`src/src/interpreter.rs` lines 26-33): a single
fresh global environment, empty environment stack, empty resolution
table, empty output. -/
def initialSt : St :=
  { envs := [⟨[], none⟩], cells := [], insts := [], env := 0,
    envStack := [], locals := [], output := "" }

/-- The host pipeline on an already-parsed program (`runline`,
`src/interpreter/src/lib.rs` lines 64-76, past the lexer/parser, which
the spec treats as external): resolve against a fresh resolver and the
interpreter's state, then execute. A resolution error aborts before any
execution. -/
def runProgram (fuel : Nat) (prog : List Stmt) :
    Sum ResErr (Except Jmp Unit × St) :=
  match resolveStmts fuel Resolver.new initialSt prog with
  | .error e => .inl e
  | .ok (_, st) => .inr (runMany fuel prog st)

/-- The printed output of a program that resolves and runs to
completion. -/
def programOutput (fuel : Nat) (prog : List Stmt) : Option String :=
  match runProgram fuel prog with
  | .inr (.ok _, st) => some st.output
  | _ => none

/-- The value bound to `name` in the global scope after a run: the cell
the global environment maps `name` to, dereferenced. -/
def globalBinding (st : St) (name : String) : Option Object :=
  match st.envs.get? 0 with
  | some ed =>
    match List.lookup name ed.values with
    | some (some c) => st.cells.get? c
    | _ => none
  | none => none

section Lemmas

theorem lookup_upsert {α : Type} (k : String) (v : α) (l : List (String × α)) :
    List.lookup k (upsert k v l) = some v := by
  induction l with
  | nil => simp [upsert, List.lookup]
  | cons hd tl ih =>
    obtain ⟨k', v'⟩ := hd
    by_cases h : k' = k
    · simp [upsert, h, List.lookup]
    · have hne : (k == k') = false := by
        simp only [beq_eq_false_iff_ne]
        exact fun hc => h hc.symm
      simp [upsert, if_neg h, List.lookup, hne, ih]

theorem lookup_upsert_ne {α : Type} (k k' : String) (v : α)
    (l : List (String × α)) (h : k' ≠ k) :
    List.lookup k' (upsert k v l) = List.lookup k' l := by
  have hne : (k' == k) = false := by
    simp only [beq_eq_false_iff_ne]
    exact h
  induction l with
  | nil => simp [upsert, List.lookup, hne]
  | cons hd tl ih =>
    obtain ⟨k0, v0⟩ := hd
    by_cases hk : k0 = k
    · subst hk
      simp [upsert, List.lookup, hne]
    · simp [upsert, if_neg hk, List.lookup, ih]

theorem lookup_upsert_isSome {α : Type} (k k' : String) (v : α)
    (l : List (String × α)) :
    (List.lookup k' (upsert k v l)).isSome ↔
      (k' = k ∨ (List.lookup k' l).isSome) := by
  by_cases h : k' = k
  · subst h
    simp [lookup_upsert]
  · rw [lookup_upsert_ne _ _ _ _ h]
    simp [h]

end Lemmas

theorem _get_env_set_values (st : St) (t : Nat) (ed : EnvData)
    (vals' : List (String × Option Nat)) (cs' : List Object)
    (is' : List InstData) (id : Identifier)
    (hged : st.envs[t]? = some ed)
    (hpres : (List.lookup id.ident vals').isSome = true) :
    ∀ (up2 e2 t' : Nat),
      _get_env st e2 id up2 = .ok t' →
      _get_env
        { st with cells := cs', insts := is',
                  envs := st.envs.set t { ed with values := vals' } }
        e2 id up2 = .ok t' := by
  obtain ⟨hlen, -⟩ := List.getElem?_eq_some.mp hged
  intro up2
  induction up2 with
  | zero =>
    intro e2 t' h
    cases hge : st.envs[e2]? with
    | none => simp [_get_env, hge] at h
    | some ed2 =>
      simp only [_get_env, List.get?_eq_getElem?, hge] at h
      by_cases hp : (List.lookup id.ident ed2.values).isSome
      · rw [if_pos hp] at h
        cases h
        by_cases he : e2 = t
        · subst he
          have hed : ed2 = ed := by rw [hge] at hged; cases hged; rfl
          subst hed
          have hset : (st.envs.set e2 { ed2 with values := vals' })[e2]? =
              some { ed2 with values := vals' } := List.getElem?_set_self hlen
          simp [_get_env, List.get?_eq_getElem?, hset, hpres]
        · have hset : (st.envs.set t { ed with values := vals' })[e2]? =
              st.envs[e2]? := List.getElem?_set_ne (fun hc => he hc.symm)
          simp [_get_env, List.get?_eq_getElem?, hset, hge, hp]
      · rw [if_neg hp] at h
        cases h
  | succ k ih =>
    intro e2 t' h
    cases hge : st.envs[e2]? with
    | none => simp [_get_env, hge] at h
    | some ed2 =>
      simp only [_get_env, List.get?_eq_getElem?, hge] at h
      cases henc : ed2.enclosing with
      | none => rw [henc] at h; cases h
      | some p =>
        rw [henc] at h
        by_cases he : e2 = t
        · subst he
          have hed : ed2 = ed := by rw [hge] at hged; cases hged; rfl
          subst hed
          rw [henc] at ih
          simp only [_get_env, List.get?_eq_getElem?, henc,
            List.getElem?_set_self hlen]
          exact ih p t' h
        · have hset : (st.envs.set t { ed with values := vals' })[e2]? =
              st.envs[e2]? := List.getElem?_set_ne (fun hc => he hc.symm)
          simp only [_get_env, List.get?_eq_getElem?, hset, hge, henc]
          exact ih p t' h

/-- The counter program of C1:
`fun counter(){ var i=0; fun inc(){ i=i+1; print i; } return inc; }
var c=counter(); c(); c();` (each identifier occurrence carries its
distinct `rid`). -/
def counterProg : List Stmt :=
  [ .funDecl (.mk ⟨"counter", 1⟩ []
      [ .varDecl ⟨"i", 2⟩ (some (.int 0)),
        .funDecl (.mk ⟨"inc", 3⟩ []
          [ .expr (.assign (.ident ⟨"i", 4⟩) (.binary .add (.ident ⟨"i", 5⟩) (.int 1))),
            .print (.ident ⟨"i", 6⟩) ]),
        .ret (.ident ⟨"inc", 7⟩) ]),
    .varDecl ⟨"c", 8⟩ (some (.call (.ident ⟨"counter", 9⟩) [])),
    .expr (.call (.ident ⟨"c", 10⟩) []),
    .expr (.call (.ident ⟨"c", 11⟩) []) ]

/-- One scope binding `i` to cell 0, whose store holds `Int 0` in that
cell (the state used to exhibit what `assign_env` does to the cell). -/
def c1State0 : St := ⟨[⟨[("i", some 0)], none⟩], [.int 0], [], 0, [], [], ""⟩

/-- `c1State0` after `i = 5` through `assign_env` at distance 0. -/
def c1State1 : St :=
  match assign_env c1State0 0 ⟨"i", 0⟩ 0 (.int 5) with
  | .ok st => st
  | .error _ => c1State0

/-- C1, counterexample to the claim's in-place-mutation conjunct: at the
concrete state binding `i` to cell 0 (holding `Int 0`), assigning `5` to
`i` does not mutate cell 0 in place — `assign_env` re-points the binding
at the freshly allocated cell 1 holding the new value, and cell 0 still
holds the old `Int 0` afterwards. The update is a replacement of the
binding's cell inside the shared scope, not an in-place mutation of the
shared cell. -/
theorem assign_replaces_cell_counterexample :
    ((c1State0.envs.get? 0).map (fun ed => List.lookup "i" ed.values) =
      some (some (some 0))) ∧
    ((c1State1.envs.get? 0).map (fun ed => List.lookup "i" ed.values) =
      some (some (some 1))) ∧
    c1State1.cells.get? 0 = some (.int 0) ∧
    c1State1.cells.get? 1 = some (.int 5) :=
  ⟨rfl, rfl, rfl, rfl⟩

set_option maxHeartbeats 4000000 in
/-- C1 (amended): `assign_env` walks to the resolved scope and replaces
the name's binding there with a fresh cell holding the new value; since
the scope itself is shared, every holder of that scope observes the new
value on its next read — any `get_env` walk (from any environment index,
at any distance) that lands in the same target scope now yields the
fresh cell with the assigned value. Concretely, the counter program
prints `1` then `2` (shared mutable capture, not a per-call reset). -/
theorem assign_updates_shared_scope
    (st st' : St) (e up t : Nat) (id : Identifier) (v : Object)
    (htarget : _get_env st e id up = .ok t)
    (hassign : assign_env st e id up v = .ok st')
    (e2 up2 : Nat)
    (htarget2 : _get_env st e2 id up2 = .ok t) :
    get_env st' e2 id up2 = .ok st.cells.length ∧
    st'.cells.get? st.cells.length = some v ∧
    programOutput 14 counterProg = some "1\n2\n" := by
  unfold assign_env at hassign
  rw [htarget] at hassign
  cases hged : st.envs[t]? with
  | none =>
    simp only [List.get?_eq_getElem?, hged] at hassign
    exact (Except.noConfusion hassign)
  | some ed =>
    simp only [List.get?_eq_getElem?, hged] at hassign
    injection hassign with h
    subst h
    have hpres : (List.lookup id.ident
        (upsert id.ident (some st.cells.length) ed.values)).isSome = true := by
      rw [lookup_upsert]; rfl
    have hwalk := _get_env_set_values st t ed
      (upsert id.ident (some st.cells.length) ed.values)
      (st.cells ++ [v]) st.insts id hged hpres up2 e2 t htarget2
    obtain ⟨hlen, -⟩ := List.getElem?_eq_some.mp hged
    have hset : (st.envs.set t
        { ed with values := upsert id.ident (some st.cells.length) ed.values })[t]? =
        some { ed with values := upsert id.ident (some st.cells.length) ed.values } :=
      List.getElem?_set_self hlen
    refine ⟨?_, ?_, by decide⟩
    · unfold get_env
      rw [hwalk]
      simp [List.get?_eq_getElem?, hset, lookup_upsert]
    · simp [List.get?_eq_getElem?, List.getElem?_concat_length]

/-- Witness for C1 at a concrete input: assigning `5` to `i` at distance
0 in `c1State0` makes every distance-0 read of `i` from scope 0 yield
the new value through the fresh cell 1. -/
theorem assign_updates_shared_scope_witness :
    get_env c1State1 0 ⟨"i", 0⟩ 0 = .ok 1 ∧
    c1State1.cells.get? 1 = some (.int 5) ∧
    programOutput 14 counterProg = some "1\n2\n" :=
  assign_updates_shared_scope c1State0 c1State1 0 0 0 ⟨"i", 0⟩ (.int 5)
    rfl rfl 0 0 rfl

/-- The declaration state of a name as seen by the resolver's scope
walk: the state recorded in the innermost scope that mentions the name
(statement helper for the theorems below). -/
def scopeStateOf (name : String) : List RScope → Option VariableState
  | [] => none
  | s :: rest =>
    match List.lookup name s with
    | some b => some b
    | none => scopeStateOf name rest

theorem resolveLocalGo_uninit (name : String) (b : VariableState)
    (hb : b ≠ .initialized) :
    ∀ (scopes : List RScope) (i : Nat),
      scopeStateOf name scopes = some b →
      resolveLocalGo name true scopes i =
        .error (.accessedUninitializedVariable name) := by
  intro scopes
  induction scopes with
  | nil => intro i h; simp [scopeStateOf] at h
  | cons s rest ih =>
    intro i h
    simp only [scopeStateOf] at h
    cases hl : List.lookup name s with
    | some b' =>
      rw [hl] at h
      cases h
      cases b with
      | initialized => exact absurd rfl hb
      | declared => simp [resolveLocalGo, hl]; decide
      | defined => simp [resolveLocalGo, hl]; decide
    | none =>
      rw [hl] at h
      simp [resolveLocalGo, hl, ih (i + 1) h]

/-- C9: reading a declared-but-never-initialized variable is rejected on
both levels. Statically, `Resolver::resolve_local` with the
initialization check on reports `Accessed an unintialized variable` as
soon as the innermost scope mentioning the name holds it in a
not-yet-`Initialized` state. Dynamically, after `declare_variable`
introduces a binding with an empty cell, `get_env` on that binding is
the `UnintializedVariableAccessed` error rather than any value (in
particular not `nil`). -/
theorem uninitialized_read_rejected :
    (∀ (r : Resolver) (st : St) (id : Identifier) (b : VariableState),
      scopeStateOf id.ident r.scopes = some b → b ≠ .initialized →
      resolve_local r st id true =
        .error (.accessedUninitializedVariable id.ident)) ∧
    (∀ (st : St) (e : Nat) (id : Identifier) (st' : St),
      declare_variable st e id = .ok st' →
      get_env st' e id 0 = .error (.uninitializedVariableAccessed id)) := by
  constructor
  · intro r st id b hfound hb
    unfold resolve_local
    rw [resolveLocalGo_uninit id.ident b hb r.scopes 0 hfound]
  · intro st e id st' hdecl
    unfold declare_variable at hdecl
    cases hget : st.envs.get? e with
    | none => rw [hget] at hdecl; cases hdecl
    | some ed =>
      rw [hget] at hdecl
      by_cases hpres : (List.lookup id.ident ed.values).isSome
      · simp [hpres] at hdecl
      · simp only [hpres, if_neg, Bool.false_eq_true, ite_false] at hdecl
        cases hdecl
        obtain ⟨hlen, -⟩ := List.get?_eq_some.mp hget
        have hget' :
            (st.envs.set e { ed with values := upsert id.ident none ed.values })[e]? =
              some { ed with values := upsert id.ident none ed.values } :=
          List.getElem?_set_self hlen
        simp [get_env, _get_env, hget', lookup_upsert]

/-- Witness for C9 at concrete inputs: a scope stack whose innermost
scope holds `a` merely `Defined` (the state of `var a;`) rejects a read
of `a`; and after declaring `a` with an empty cell in the fresh global
environment, the environment lookup reports the uninitialized-access
error. -/
theorem uninitialized_read_rejected_witness :
    resolve_local ⟨[[("a", .defined)]], .none, .none, .none⟩ initialSt
        ⟨"a", 1⟩ true =
      .error (.accessedUninitializedVariable "a") ∧
    get_env ⟨[⟨[("a", none)], none⟩], [], [], 0, [], [], ""⟩ 0 ⟨"a", 1⟩ 0 =
      .error (.uninitializedVariableAccessed ⟨"a", 1⟩) :=
  ⟨uninitialized_read_rejected.1 ⟨[[("a", .defined)]], .none, .none, .none⟩
      initialSt ⟨"a", 1⟩ .defined rfl (by decide),
   uninitialized_read_rejected.2 initialSt 0 ⟨"a", 1⟩
      ⟨[⟨[("a", none)], none⟩], [], [], 0, [], [], ""⟩ rfl⟩

theorem resolveLocalGo_absent (name : String) (checkInit : Bool) :
    ∀ (scopes : List RScope) (i : Nat),
      (∀ s ∈ scopes, List.lookup name s = none) →
      resolveLocalGo name checkInit scopes i =
        .error
          (if name = "super" then .superInClassWithNoSuperclass
           else .undefinedVariable name) := by
  intro scopes
  induction scopes with
  | nil => intro i _; rfl
  | cons s rest ih =>
    intro i habs
    have hs : List.lookup name s = none := habs s (List.mem_cons_self s rest)
    have hrest : ∀ s' ∈ rest, List.lookup name s' = none :=
      fun s' hs' => habs s' (List.mem_cons_of_mem s hs')
    simp [resolveLocalGo, hs, ih (i + 1) hrest]

/-- C3, counterexample: the claim says a reference whose name is
declared in no lexical scope resolves successfully as a global;
resolving the one-statement program `print x;` (with `x` declared
nowhere) from a fresh resolver instead reports the
`Undefined variable 'x'.` resolution error. -/
theorem undeclared_reference_assumed_global_counterexample :
    resolveStmts 9 Resolver.new initialSt [.print (.ident ⟨"x", 1⟩)] =
      .error (.undefinedVariable "x") := rfl

/-- C3 (amended): resolution of a variable reference whose name is not
declared in any scope on the resolver's stack does not succeed as an
assumed global — it reports the `Undefined variable` resolution error
(for the name `super`, the special no-superclass error). The global
scope is not absent from the stack either: `Resolver::new` starts the
stack with exactly one scope, which serves as the global scope, so
top-level names are found there (at a distance one less than the stack
size). -/
theorem undeclared_reference_resolution_errors
    (r : Resolver) (st : St) (id : Identifier) (checkInit : Bool)
    (habsent : ∀ s ∈ r.scopes, List.lookup id.ident s = none) :
    (id.ident ≠ "super" →
      resolve_local r st id checkInit = .error (.undefinedVariable id.ident)) ∧
    (id.ident = "super" →
      resolve_local r st id checkInit = .error .superInClassWithNoSuperclass) ∧
    Resolver.new.scopes.length = 1 := by
  refine ⟨fun hni => ?_, fun hi => ?_, rfl⟩ <;>
    unfold resolve_local <;>
    rw [resolveLocalGo_absent id.ident checkInit r.scopes 0 habsent]
  · simp [hni]
  · simp [hi]

/-- Witness for C3 at a concrete input: resolving the never-declared
name `x` against a fresh resolver reports `Undefined variable`. -/
theorem undeclared_reference_resolution_errors_witness :
    resolve_local Resolver.new initialSt ⟨"x", 1⟩ true =
      .error (.undefinedVariable "x") ∧
    Resolver.new.scopes.length = 1 :=
  ⟨(undeclared_reference_resolution_errors Resolver.new initialSt ⟨"x", 1⟩ true
      (by intro s hs; simp [Resolver.new] at hs; simp [hs])).1 (by decide),
   (undeclared_reference_resolution_errors Resolver.new initialSt ⟨"x", 1⟩ true
      (by intro s hs; simp [Resolver.new] at hs; simp [hs])).2.2⟩

/-- The initializer-coercion program of C2:
`class Foo{init(){return;}} var f=Foo();`. -/
def fooProg : List Stmt :=
  [ .classDecl ⟨"Foo", 1⟩ none [ .mk ⟨"init", 2⟩ [] [ .ret .nil ] ],
    .varDecl ⟨"f", 3⟩ (some (.call (.ident ⟨"Foo", 4⟩) [])) ]

set_option maxHeartbeats 4000000 in
/-- C2: a call of an initializer function (`is_initializer` set) whose
body completes — normally or through any `return`, whatever value the
signal carries — results in the object bound to `this` one scope above
the call scope (the binding environment created by `FuncObject::bind`),
not in the body's result. Concretely, for
`class Foo{init(){return;}} var f=Foo();` the global `f` ends up bound
to the constructed instance, not `nil`. -/
theorem initializer_call_returns_bound_this
    (n : Nat) (f : FuncObject) (args : List Object) (st st5 : St)
    (r : Except Jmp Unit) (hinit : f.is_initializer = true)
    (harity : args.length = f.params.length)
    (hrun : runMany n f.body
        (bindParams (push_scope (save_env st f.closure)) f.params args) = (r, st5))
    (hret : r = .ok () ∨ ∃ v, r = .error (.ret v))
    (c : Nat) (o : Object)
    (hthis : get_env st5 st5.env ⟨"this", 0⟩ 1 = .ok c)
    (hcell : st5.cells.get? c = some o)
    (p : Nat) (hpop : pop_env st5 st5.env = some p)
    (top : Nat) (rest : List Nat) (hstack : st5.envStack = top :: rest) :
    funcCall (n + 2) f args st =
      (.ok o, { st5 with env := top, envStack := rest }) ∧
    (match runProgram 12 fooProg with
     | .inr (.ok _, stf) => globalBinding stf "f"
     | _ => none) = some (.instance 0) := by
  constructor
  · have hcall : funcCall (n + 2) f args st = funcCallRun (n + 1) f args st := by
      simp [funcCall, harity]
    rw [hcall]
    rw [List.get?_eq_getElem?] at hcell
    rcases hret with rfl | ⟨v, rfl⟩ <;>
      simp only [funcCallRun, hrun] <;>
      simp [funcCallFinish, hinit, hthis, hcell, hpop, hstack]
  · rfl

/-- Witness for C2 at a concrete input: a parameterless initializer
whose body is `return;`, whose closure is the `this`-binding scope 1
(holding the instance in cell 0), called with no arguments, returns the
instance — not the `nil` the body produced. -/
theorem initializer_call_returns_bound_this_witness :
    funcCall 5 (.mk (some ⟨"init", 2⟩) [] [.ret .nil] 1 true) []
        ⟨[⟨[], none⟩, ⟨[("this", some 0)], some 0⟩], [.instance 0],
          [⟨.mk ⟨"Foo", 1⟩ none [], []⟩], 0, [], [], ""⟩ =
      (.ok (.instance 0),
        ⟨[⟨[], none⟩, ⟨[("this", some 0)], some 0⟩, ⟨[], some 1⟩], [.instance 0],
          [⟨.mk ⟨"Foo", 1⟩ none [], []⟩], 0, [], [], ""⟩) ∧
    (match runProgram 12 fooProg with
     | .inr (.ok _, stf) => globalBinding stf "f"
     | _ => none) = some (.instance 0) :=
  initializer_call_returns_bound_this 3
    (.mk (some ⟨"init", 2⟩) [] [.ret .nil] 1 true) []
    ⟨[⟨[], none⟩, ⟨[("this", some 0)], some 0⟩], [.instance 0],
      [⟨.mk ⟨"Foo", 1⟩ none [], []⟩], 0, [], [], ""⟩
    ⟨[⟨[], none⟩, ⟨[("this", some 0)], some 0⟩, ⟨[], some 1⟩], [.instance 0],
      [⟨.mk ⟨"Foo", 1⟩ none [], []⟩], 2, [0], [], ""⟩
    (.error (.ret .nil)) rfl rfl rfl (Or.inr ⟨.nil, rfl⟩) 0 (.instance 0)
    rfl rfl 1 rfl 0 [] rfl

/-- C4: evaluating `e1 and e2` evaluates `e1` first and, when its value
is falsy, returns that very value with `e2` unevaluated (the resulting
state is exactly the state after `e1`); when truthy, the result is the
evaluation of `e2` in the post-`e1` state. Dually, `e1 or e2` returns
the value of `e1` when truthy, leaving `e2` unevaluated, else the value
of `e2`. The actual operand value, not a coerced boolean, is returned. -/
theorem logical_short_circuit
    (n : Nat) (e1 e2 : Expr) (env : Nat) (st st1 : St) (v : Object)
    (h1 : evalExpr n e1 env st = (.ok v, st1)) :
    (v.is_truth = false →
      evalExpr (n + 1) (.logical .and e1 e2) env st = (.ok v, st1)) ∧
    (v.is_truth = true →
      evalExpr (n + 1) (.logical .and e1 e2) env st = evalExpr n e2 env st1) ∧
    (v.is_truth = true →
      evalExpr (n + 1) (.logical .or e1 e2) env st = (.ok v, st1)) ∧
    (v.is_truth = false →
      evalExpr (n + 1) (.logical .or e1 e2) env st = evalExpr n e2 env st1) := by
  refine ⟨?_, ?_, ?_, ?_⟩ <;> intro hv <;> simp [evalExpr, h1, hv]

/-- Witness for C4 at concrete inputs: `false and "x"` yields `false`
itself (the operand, not a coercion; `"x"` unevaluated), and `0 or nil`
yields `nil` only through evaluating the right side — here the truthy
`0` short-circuits `or` and is returned as-is. -/
theorem logical_short_circuit_witness :
    evalExpr 2 (.logical .and (.boolean false) (.str "x")) 0 initialSt =
      (.ok (.boolean false), initialSt) ∧
    evalExpr 2 (.logical .or (.int 0) (.str "x")) 0 initialSt =
      (.ok (.int 0), initialSt) :=
  ⟨(logical_short_circuit 1 (.boolean false) (.str "x") 0 initialSt initialSt
      (.boolean false) rfl).1 rfl,
   (logical_short_circuit 1 (.int 0) (.str "x") 0 initialSt initialSt
      (.int 0) rfl).2.2.1 rfl⟩

/-- C5: a division whose two operands evaluate to numbers and whose
divisor is exactly zero (`Int 0` or `Float 0`) evaluates to the reported
runtime error `Cannot divide by 0.` — by this very equality it yields no
value at all (in particular no float infinity or NaN) and no panic, for
any numeric dividend. -/
theorem division_by_zero_runtime_error
    (n : Nat) (e1 e2 : Expr) (env : Nat) (st st1 st2 : St) (d z : Object)
    (h1 : evalExpr n e1 env st = (.ok d, st1))
    (h2 : evalExpr n e2 env st1 = (.ok z, st2))
    (hd : (∃ a, d = Object.int a) ∨ ∃ q, d = Object.float q)
    (hz : z = Object.int 0 ∨ z = Object.float 0) :
    evalExpr (n + 1) (.binary .div e1 e2) env st =
      (.error (.err .cannotDivideByZero), st2) ∧
    renderRError .cannotDivideByZero = "Cannot divide by 0." := by
  constructor
  · rcases hd with ⟨a, rfl⟩ | ⟨q, rfl⟩ <;> rcases hz with rfl | rfl <;>
      simp [evalExpr, h1, h2, evalBinary]
  · rfl

/-- Witness for C5 at concrete inputs: `1 / 0` and `1.0 / 0.0` are the
reported `Cannot divide by 0.` runtime error. -/
theorem division_by_zero_runtime_error_witness :
    (evalExpr 2 (.binary .div (.int 1) (.int 0)) 0 initialSt =
      (.error (.err .cannotDivideByZero), initialSt) ∧
     renderRError .cannotDivideByZero = "Cannot divide by 0.") ∧
    (evalExpr 2 (.binary .div (.float 1) (.float 0)) 0 initialSt =
      (.error (.err .cannotDivideByZero), initialSt) ∧
     renderRError .cannotDivideByZero = "Cannot divide by 0.") :=
  ⟨division_by_zero_runtime_error 1 (.int 1) (.int 0) 0 initialSt initialSt
      initialSt (.int 1) (.int 0) rfl rfl (Or.inl ⟨1, rfl⟩) (Or.inl rfl),
   division_by_zero_runtime_error 1 (.float 1) (.float 0) 0 initialSt initialSt
      initialSt (.float 1) (.float 0) rfl rfl (Or.inr ⟨1, rfl⟩) (Or.inr rfl)⟩

theorem set_concat_length {α : Type} (l : List α) (a b : α) :
    (l ++ [a]).set l.length b = l ++ [b] := by
  induction l with
  | nil => rfl
  | cons hd tl ih => simp [List.set, ih]

/-- C8: binding a method to an instance produces a new function whose
captured environment is a freshly allocated one-step child of the
original method's closure, holding `this` bound to the instance in a
fresh cell; the new function agrees with the original in name,
parameters, body and initializer flag, and every pre-existing
environment, cell and instance of the store is left unchanged (nothing
is mutated — only the fresh scope and cell are allocated). -/
theorem method_bind_fresh_child_env (f : FuncObject) (inst : Nat) (st : St) :
    ((FuncObject.bind f inst st).1.closure = st.envs.length) ∧
    ((FuncObject.bind f inst st).2.envs.get? st.envs.length =
      some ⟨[("this", some st.cells.length)], some f.closure⟩) ∧
    ((FuncObject.bind f inst st).2.cells.get? st.cells.length =
      some (.instance inst)) ∧
    ((FuncObject.bind f inst st).1.name = f.name ∧
     (FuncObject.bind f inst st).1.params = f.params ∧
     (FuncObject.bind f inst st).1.body = f.body ∧
     (FuncObject.bind f inst st).1.is_initializer = f.is_initializer) ∧
    (∀ j, j < st.envs.length →
      (FuncObject.bind f inst st).2.envs.get? j = st.envs.get? j) ∧
    (∀ k, k < st.cells.length →
      (FuncObject.bind f inst st).2.cells.get? k = st.cells.get? k) ∧
    ((FuncObject.bind f inst st).2.insts = st.insts) := by
  unfold FuncObject.bind push_env init_variable
  refine ⟨?_, ?_, ?_, ⟨?_, ?_, ?_, ?_⟩, fun j hj => ?_, fun k hk => ?_, ?_⟩ <;>
    simp [upsert, set_concat_length, List.get?_eq_getElem?,
      List.getElem?_concat_length, FuncObject.closure, FuncObject.name,
      FuncObject.params, FuncObject.body, FuncObject.is_initializer]
  · rw [List.getElem?_append_left hj]
  · rw [List.getElem?_append_left hk]

/-- Witness for C8 at a concrete input: binding a parameterless method
whose closure is scope 0 to instance 0 in the initial store yields a
function closing over the fresh scope 1, which is a child of scope 0
holding `this` in the fresh cell 0. -/
theorem method_bind_fresh_child_env_witness :
    ((FuncObject.bind (.mk (some ⟨"m", 1⟩) [] [] 0 false) 0 initialSt).1.closure = 1) ∧
    ((FuncObject.bind (.mk (some ⟨"m", 1⟩) [] [] 0 false) 0 initialSt).2.envs.get? 1 =
      some ⟨[("this", some 0)], some 0⟩) ∧
    ((FuncObject.bind (.mk (some ⟨"m", 1⟩) [] [] 0 false) 0 initialSt).2.cells.get? 0 =
      some (.instance 0)) :=
  ⟨(method_bind_fresh_child_env (.mk (some ⟨"m", 1⟩) [] [] 0 false) 0 initialSt).1,
   (method_bind_fresh_child_env (.mk (some ⟨"m", 1⟩) [] [] 0 false) 0 initialSt).2.1,
   (method_bind_fresh_child_env (.mk (some ⟨"m", 1⟩) [] [] 0 false) 0 initialSt).2.2.1⟩

/-- C6: calling a class value with as many arguments as its constructor
arity (the `init` method's parameter count found through the inheritance
chain, or 0 with no initializer) allocates a fresh instance with an
empty field map at the next free slot of the instance store; if an
`init` method exists it is bound to that very instance and called, and
whatever that call produces, the result of the construction is the
instance; with no initializer the instance is returned directly. A
different argument count is the arity runtime error and nothing is
allocated. -/
theorem class_call_construction
    (n : Nat) (c : ClassObject) (args : List Object) (st : St) :
    (args.length ≠ classArity c →
      classCall (n + 1) c args st =
        (.error (.err (.expectedArguments (classArity c) args.length)), st)) ∧
    (args.length = classArity c →
      (c.find_method "init" = none →
        classCall (n + 1) c args st =
          (.ok (.instance st.insts.length),
            { st with insts := st.insts ++ [⟨c, []⟩] })) ∧
      (∀ m, c.find_method "init" = some m →
        ∀ (res : Object) (st3 : St),
          funcCall n
              (FuncObject.bind m st.insts.length
                { st with insts := st.insts ++ [⟨c, []⟩] }).1 args
              (FuncObject.bind m st.insts.length
                { st with insts := st.insts ++ [⟨c, []⟩] }).2 = (.ok res, st3) →
          classCall (n + 1) c args st =
            (.ok (.instance st.insts.length), st3))) ∧
    (c.find_method "init" = none → classArity c = 0) ∧
    (∀ m, c.find_method "init" = some m → classArity c = funcArity m) := by
  refine ⟨fun hne => ?_, fun heq => ⟨fun hno => ?_, fun m hm res st3 hcall => ?_⟩,
    fun hno => ?_, fun m hm => ?_⟩
  · simp [classCall, hne]
  · simp [classCall, heq, hno]
  · simp [classCall, heq, hm, hcall]
  · simp [classArity, hno]
  · simp [classArity, hm]

/-- Witness for C6 at concrete inputs: constructing an initializer-free
class allocates instance 0 with an empty field map and returns it; a
one-extra-argument call is the arity error; and a class inheriting an
`init(a)` from its superclass has constructor arity 1. -/
theorem class_call_construction_witness :
    classCall 1 (.mk ⟨"Bagel", 1⟩ none []) [] initialSt =
      (.ok (.instance 0),
        { initialSt with insts := [⟨.mk ⟨"Bagel", 1⟩ none [], []⟩] }) ∧
    classCall 1 (.mk ⟨"Bagel", 1⟩ none []) [.int 1] initialSt =
      (.error (.err (.expectedArguments 0 1)), initialSt) ∧
    classArity
      (.mk ⟨"Child", 2⟩
        (some (.mk ⟨"Parent", 3⟩ none
          [.mk "init" (.mk (some ⟨"init", 4⟩) [⟨"a", 5⟩] [] 0 true)])) []) = 1 :=
  ⟨((class_call_construction 0 (.mk ⟨"Bagel", 1⟩ none []) [] initialSt).2.1
      rfl).1 rfl,
   (class_call_construction 0 (.mk ⟨"Bagel", 1⟩ none []) [.int 1] initialSt).1
      (by decide),
   (class_call_construction 0
      (.mk ⟨"Child", 2⟩
        (some (.mk ⟨"Parent", 3⟩ none
          [.mk "init" (.mk (some ⟨"init", 4⟩) [⟨"a", 5⟩] [] 0 true)])) []) [] initialSt).2.2.2
      (.mk (some ⟨"init", 4⟩) [⟨"a", 5⟩] [] 0 true) rfl⟩

/-- C7: calling a function with an argument count different from its
parameter count fails right at the call with the runtime error
`Expected {params} arguments but got {args}.`, whose message names both
counts; with equal counts the call proceeds to the parameter-binding and
body-execution remainder of `FuncObject::call` (no arity error is raised
by this call), so arguments are never padded or truncated. -/
theorem function_call_arity_check
    (n : Nat) (f : FuncObject) (args : List Object) (st : St) :
    (args.length ≠ f.params.length →
      funcCall (n + 1) f args st =
        (.error (.err (.expectedArguments f.params.length args.length)), st)) ∧
    (renderRError (.expectedArguments f.params.length args.length) =
      "Expected " ++ toString f.params.length ++ " arguments but got " ++
        toString args.length ++ ".") ∧
    (args.length = f.params.length →
      funcCall (n + 1) f args st = funcCallRun n f args st) := by
  refine ⟨fun h => ?_, rfl, fun h => ?_⟩ <;> simp [funcCall, h]

/-- Witness for C7 at a concrete input: `fun f(a,b){}` called with one
argument is the runtime error naming 2 expected and 1 actual. -/
theorem function_call_arity_check_witness :
    funcCall 1 (.mk (some ⟨"f", 1⟩) [⟨"a", 2⟩, ⟨"b", 3⟩] [] 0 false)
        [.int 1] initialSt =
      (.error (.err (.expectedArguments 2 1)), initialSt) ∧
    renderRError (.expectedArguments 2 1) =
      "Expected 2 arguments but got 1." :=
  ⟨(function_call_arity_check 0 (.mk (some ⟨"f", 1⟩) [⟨"a", 2⟩, ⟨"b", 3⟩] [] 0 false)
      [.int 1] initialSt).1 (by decide),
   rfl⟩

theorem digitChar_ne_quote (d : Nat) : Nat.digitChar d ≠ '"' := by
  rcases Nat.lt_or_ge d 16 with h | h
  · interval_cases d <;> decide
  · have hne : ∀ k : Nat, k < 16 → d ≠ k := by omega
    simp [Nat.digitChar, hne 0 (by omega), hne 1 (by omega), hne 2 (by omega),
      hne 3 (by omega), hne 4 (by omega), hne 5 (by omega), hne 6 (by omega),
      hne 7 (by omega), hne 8 (by omega), hne 9 (by omega), hne 10 (by omega),
      hne 11 (by omega), hne 12 (by omega), hne 13 (by omega), hne 14 (by omega),
      hne 15 (by omega)]

theorem toDigitsCore_ne_quote (b : Nat) :
    ∀ (f n : Nat) (l : List Char), (∀ c ∈ l, c ≠ '"') →
      ∀ c ∈ Nat.toDigitsCore b f n l, c ≠ '"' := by
  intro f
  induction f with
  | zero => exact fun n l hl c hc => hl c hc
  | succ f ih =>
    intro n l hl c hc
    simp only [Nat.toDigitsCore] at hc
    by_cases h : n / b = 0
    · rw [if_pos h] at hc
      rcases List.mem_cons.mp hc with hc1 | hc1
      · exact hc1 ▸ digitChar_ne_quote _
      · exact hl c hc1
    · rw [if_neg h] at hc
      refine ih (n / b) (Nat.digitChar (n % b) :: l) ?_ c hc
      intro c' hc'
      rcases List.mem_cons.mp hc' with hc1 | hc1
      · exact hc1 ▸ digitChar_ne_quote _
      · exact hl c' hc1

theorem natRepr_ne_quote (n : Nat) : ∀ c ∈ (Nat.repr n).data, c ≠ '"' := by
  intro c hc
  have hd : (Nat.repr n).data = Nat.toDigits 10 n := by
    simp [Nat.repr, List.asString]
  rw [hd] at hc
  exact toDigitsCore_ne_quote 10 (n + 1) n [] (by simp) c hc

theorem intToString_ne_quote (i : Int) : ∀ c ∈ (toString i).data, c ≠ '"' := by
  show ∀ c ∈ (Int.repr i).data, c ≠ '"'
  match i with
  | .ofNat m => exact natRepr_ne_quote m
  | .negSucc m =>
    intro c hc
    have hd : (Int.repr (Int.negSucc m)).data = '-' :: (Nat.repr (m + 1)).data := by
      simp [Int.repr]
    rw [hd] at hc
    rcases List.mem_cons.mp hc with hc1 | hc1
    · subst hc1; decide
    · exact natRepr_ne_quote _ c hc1

theorem ratRepr_ne_quote (q : Rat) : ∀ c ∈ (ratRepr q).data, c ≠ '"' := by
  intro c hc
  unfold ratRepr at hc
  by_cases h : q.den = 1
  · rw [if_pos h] at hc
    exact intToString_ne_quote q.num c hc
  · rw [if_neg h] at hc
    simp only [String.data_append] at hc
    rcases List.mem_append.mp hc with hc1 | hc1
    · rcases List.mem_append.mp hc1 with hc2 | hc2
      · exact intToString_ne_quote q.num c hc2
      · simp at hc2; subst hc2; decide
    · have : toString q.den = Nat.repr q.den := rfl
      rw [this] at hc1
      exact natRepr_ne_quote _ c hc1

/-- C10: the `print` statement writes the display of the evaluated value
followed by a newline to the output sink; a `String` value displays
wrapped in double quotes, `Nil` as `nil`, booleans as `true`/`false`,
and numbers as their bare numeral rendering which never contains a quote
character. Concretely, the program `print "one";` outputs `"one"` — the
quotes included — plus a newline. -/
theorem print_display_format
    (n : Nat) (e : Expr) (st st1 : St) (v : Object)
    (h : evalExpr n e st.env st = (.ok v, st1)) :
    runStmt (n + 1) (.print e) st =
      (.ok (), { st1 with output := st1.output ++ displayObject st1 v ++ "\n" }) ∧
    (∀ (st' : St) (s : String), displayObject st' (.str s) = "\"" ++ s ++ "\"") ∧
    (∀ st' : St, displayObject st' .nil = "nil") ∧
    (∀ st' : St, displayObject st' (.boolean true) = "true") ∧
    (∀ st' : St, displayObject st' (.boolean false) = "false") ∧
    (∀ (st' : St) (i : Int), displayObject st' (.int i) = toString i ∧
      ∀ c ∈ (displayObject st' (.int i)).data, c ≠ '"') ∧
    (∀ (st' : St) (q : Rat), displayObject st' (.float q) = ratRepr q ∧
      ∀ c ∈ (displayObject st' (.float q)).data, c ≠ '"') ∧
    programOutput 6 [.print (.str "one")] = some "\"one\"\n" := by
  refine ⟨?_, fun _ _ => rfl, fun _ => rfl, fun _ => rfl, fun _ => rfl,
    fun st' i => ⟨rfl, ?_⟩, fun st' q => ⟨rfl, ?_⟩, by decide⟩
  · simp [runStmt, h]
  · exact intToString_ne_quote i
  · exact ratRepr_ne_quote q

/-- Witness for C10 at a concrete input: printing the string literal
`"one"` appends `"one"` (quotes included) plus a newline to the output,
and the full program `print "one";` outputs exactly that. -/
theorem print_display_format_witness :
    runStmt 2 (.print (.str "one")) initialSt =
      (.ok (), { initialSt with output := "\"one\"" ++ "\n" }) ∧
    programOutput 6 [.print (.str "one")] = some "\"one\"\n" :=
  ⟨(print_display_format 1 (.str "one") initialSt initialSt (.str "one") rfl).1,
   (print_display_format 1 (.str "one") initialSt initialSt (.str "one")
      rfl).2.2.2.2.2.2.2⟩

end Lox
